import Mathlib

/-!
Verification of the `FieldValue` tagged-union value type of
`Firestore/core/src/firebase/firestore/model/field_value.cc`: the variant
data model, the ordering engine (`operator<`, the `LessThan` numeric
helpers, `Comparable`), and the lifecycle operations (`SwitchTo`, copy and
move assignment).

Doubles are embedded as an explicit sum `DoubleVal` of NaN, the two
infinities and a finite rational payload; the int64-to-double cast is
embedded as round-to-nearest-even at 53 significant bits, and the
double-to-int64 cast as truncation toward zero.
-/

namespace FieldValueSpec

/-- IEEE double values as far as the comparison logic observes them:
NaN, the two infinities, or a finite value (a rational; actual doubles
are the dyadic subset, which the comparison code never needs to single
out except where stated in a theorem). -/
inductive DoubleVal where
  | nan
  | neginf
  | posinf
  | finite (q : ℚ)
deriving DecidableEq

/-- The `isnan` predicate from `<math.h>`. -/
def DoubleVal.isNaN : DoubleVal → Bool
  | .nan => true
  | _ => false

/-- IEEE `<` on doubles: false whenever either side is NaN, otherwise the
numeric order with the infinities at the ends. -/
def dLt : DoubleVal → DoubleVal → Bool
  | .nan, _ => false
  | _, .nan => false
  | .neginf, .neginf => false
  | .neginf, _ => true
  | _, .neginf => false
  | .posinf, _ => false
  | .finite _, .posinf => true
  | .finite a, .finite b => decide (a < b)

/-- IEEE `==` on doubles: false whenever either side is NaN. -/
def dEq : DoubleVal → DoubleVal → Bool
  | .nan, _ => false
  | _, .nan => false
  | .neginf, .neginf => true
  | .posinf, .posinf => true
  | .finite a, .finite b => decide (a = b)
  | _, _ => false

/-- IEEE `>=` on doubles: `a >= b` holds iff neither is NaN and `b < a`
or `a == b`. -/
def dGe (a b : DoubleVal) : Bool := dLt b a || dEq a b

/-- 2^53, the first integer above which consecutive integers are no longer
all representable as doubles. -/
def twoPow53 : Nat := 9007199254740992

/-- Number of low bits a magnitude must drop to fit in 53 significant
bits: halve until below 2^53, counting steps.  Fuel-based so that it
reduces definitionally; 64 units of fuel cover every 64-bit magnitude. -/
def excessBitsAux : Nat → Nat → Nat
  | 0, _ => 0
  | fuel + 1, n => if n < twoPow53 then 0 else excessBitsAux fuel (n / 2) + 1

/-- Round a natural number to the nearest multiple of `2 ^ e`, ties to the
even multiple (the IEEE round-to-nearest-even rule restricted to
integers). -/
def roundNatTo (n e : Nat) : Nat :=
  if e = 0 then n
  else
    let p := 2 ^ e
    let q := n / p
    let r := n % p
    let half := p / 2
    if r < half then q * p
    else if half < r then (q + 1) * p
    else if q % 2 = 0 then q * p
    else (q + 1) * p

/-- The C++ `static_cast<double>` applied to a 64-bit integer: round to
nearest representable double, ties to even.  For any 64-bit magnitude the
result is exact below 2^53 and a multiple of the appropriate power of two
above it. -/
def roundInt53 (i : Int) : Int :=
  let n := i.natAbs
  let m := roundNatTo n (excessBitsAux 64 n)
  if i < 0 then -(m : Int) else (m : Int)

/-- Value of the double produced by casting an int64 to double. -/
def intToDoubleQ (i : Int) : ℚ := (roundInt53 i : ℚ)

/-- `LLONG_MIN`. -/
def llongMin : Int := -(2 ^ 63)

/-- `LLONG_MAX`. -/
def llongMax : Int := 2 ^ 63 - 1

/-- The C++ `static_cast<int64_t>` applied to an in-range double:
truncation toward zero. -/
def ratTrunc (q : ℚ) : Int := Int.tdiv q.num (q.den : Int)

/-- Truncation of a double; only ever applied to finite values (the
comparison code guards the range before truncating). -/
def dvTrunc : DoubleVal → Int
  | .finite q => ratTrunc q
  | _ => 0

/-- `LessThan(double, double)` of field_value.cc: ordinary float
comparison, except that NaN is less than every non-NaN number and two
NaNs are neither-less-than each other. -/
def ltDD (lhs rhs : DoubleVal) : Bool :=
  if dLt lhs rhs then true
  else if dGe lhs rhs then false
  else lhs.isNaN && !rhs.isNaN

/-- `LessThan(double, int64_t)` of field_value.cc: out-of-range (or NaN)
doubles are settled immediately; in-range doubles are truncated to int64
and, on a tie, re-compared as doubles against the cast of the integer. -/
def ltDI (lhs : DoubleVal) (rhs : Int) : Bool :=
  if dLt lhs (.finite (intToDoubleQ llongMin)) || lhs.isNaN then true
  else if dGe lhs (.finite (intToDoubleQ llongMax)) then false
  else if dvTrunc lhs < rhs then true
  else if rhs < dvTrunc lhs then false
  else ltDD lhs (.finite (intToDoubleQ rhs))

/-- `LessThan(int64_t, double)` of field_value.cc.  The source's final
return writes the double equality test twice (`lhs !=
static_cast<double>(rhs) || static_cast<double>(lhs) != rhs`; the cast of
`rhs` is the identity and in both disjuncts `lhs` converts to double), so
the two final disjuncts below coincide. -/
def ltID (lhs : Int) (rhs : DoubleVal) : Bool :=
  if ltDI rhs lhs then false
  else
    dGe rhs (.finite (intToDoubleQ llongMax)) ||
      !dEq (.finite (intToDoubleQ lhs)) rhs ||
      !dEq (.finite (intToDoubleQ lhs)) rhs

/-- Modelled from the spec: the `Timestamp` class (seconds plus
nanoseconds, signed) lives outside this translation unit; §3 and §4.2
give its payload and its lexicographic comparison. -/
structure Timestamp where
  seconds : Int
  nanos : Int
deriving DecidableEq

/-- Modelled from the spec: `Timestamp::operator<` compares
(seconds, nanoseconds) lexicographically (§4.2). -/
def tsLtB (a b : Timestamp) : Bool :=
  decide (a.seconds < b.seconds) ||
    (decide (a.seconds = b.seconds) && decide (a.nanos < b.nanos))

/-- Modelled from the spec: `Timestamp::Origin()`, the zero/origin
timestamp used by `SwitchTo` to default-initialize timestamps (§4.1). -/
def tsOrigin : Timestamp := ⟨0, 0⟩

/-- The `FieldValue::Type` enum.  Modelled from the spec: the enum itself
is declared in field_value.h; §4.2 fixes the precedence
Null < Boolean < Long < Double < Timestamp < ServerTimestamp < String <
Blob < GeoPoint < Array < Object read off by `lhs.type() < rhs.type()`. -/
inductive TypeTag where
  | null
  | boolean
  | long
  | double
  | timestamp
  | serverTimestamp
  | string
  | blob
  | geoPoint
  | array
  | object
deriving DecidableEq, Fintype

/-- Numeric value of a `Type` enumerator (declaration order). -/
def tagNat : TypeTag → Nat
  | .null => 0
  | .boolean => 1
  | .long => 2
  | .double => 3
  | .timestamp => 4
  | .serverTimestamp => 5
  | .string => 6
  | .blob => 7
  | .geoPoint => 8
  | .array => 9
  | .object => 10

/-- `Comparable` of field_value.cc: Long and Double are mutually
comparable, Timestamp and ServerTimestamp are mutually comparable, and
otherwise only identical types are. -/
def Comparable (lhs rhs : TypeTag) : Bool :=
  match lhs with
  | .long | .double => rhs = .long || rhs = .double
  | .timestamp | .serverTimestamp => rhs = .timestamp || rhs = .serverTimestamp
  | _ => lhs = rhs

mutual

/-- The `FieldValue` tagged union as a sum type: exactly one variant is
active.  Strings and blobs carry their byte sequences; GeoPoint carries
its latitude and longitude (finite coordinates); Array and Object carry
owned sequences of nested values, an Object entry being a key (byte
string) paired with a value. -/
inductive FieldValue where
  | null
  | boolean (b : Bool)
  | integer (i : Int)
  | double (d : DoubleVal)
  | timestamp (t : Timestamp)
  | serverTimestamp (l p : Timestamp)
  | string (s : List Nat)
  | blob (bytes : List Nat)
  | geoPoint (lat lon : ℚ)
  | array (xs : FieldList)
  | object (m : ObjList)

/-- The `std::vector<const FieldValue>` payload of an Array value. -/
inductive FieldList where
  | nil
  | cons (v : FieldValue) (rest : FieldList)

/-- The `std::map<const std::string, const FieldValue>` payload of an
Object value, as its (sorted) sequence of key/value entries. -/
inductive ObjList where
  | nil
  | cons (k : List Nat) (v : FieldValue) (rest : ObjList)

end

/-- The active kind of a value (`FieldValue::type()`). -/
def kindOf : FieldValue → TypeTag
  | .null => .null
  | .boolean _ => .boolean
  | .integer _ => .long
  | .double _ => .double
  | .timestamp _ => .timestamp
  | .serverTimestamp _ _ => .serverTimestamp
  | .string _ => .string
  | .blob _ => .blob
  | .geoPoint _ _ => .geoPoint
  | .array _ => .array
  | .object _ => .object

/-- Lexicographic byte comparison: `std::string::compare(...) < 0` for
String keys and values.  Modelled from the spec for `Blob::operator<`
(§4.2: lexicographic byte comparison). -/
def bytesLt : List Nat → List Nat → Bool
  | [], [] => false
  | [], _ :: _ => true
  | _ :: _, [] => false
  | a :: as, b :: bs =>
    if a < b then true
    else if b < a then false
    else bytesLt as bs

mutual

/-- `operator<(const FieldValue&, const FieldValue&)` of field_value.cc:
non-comparable kinds fall back to the type-precedence order; comparable
kinds dispatch on the left operand's kind.  The final catch-all mirrors
the source's unreachable `default: ...; return false` (the assertion
aspect of that branch is treated separately over raw tags). -/
def flt (a b : FieldValue) : Bool :=
  if Comparable (kindOf a) (kindOf b) then
    match a, b with
    | .null, _ => false
    | .boolean x, .boolean y => !x && y
    | .integer x, .integer y => decide (x < y)
    | .integer x, .double d => ltID x d
    | .double d, .double e => ltDD d e
    | .double d, .integer y => ltDI d y
    | .timestamp t, .timestamp u => tsLtB t u
    | .timestamp _, _ => true
    | .serverTimestamp l _, .serverTimestamp m _ => tsLtB l m
    | .serverTimestamp _ _, _ => false
    | .string s, .string t => bytesLt s t
    | .blob s, .blob t => bytesLt s t
    | .geoPoint la lo, .geoPoint lb ln =>
      decide (la < lb) || (decide (la = lb) && decide (lo < ln))
    | .array xs, .array ys => flistLt xs ys
    | .object m, .object n => foLt m n
    | _, _ => false
  else decide (tagNat (kindOf a) < tagNat (kindOf b))
termination_by sizeOf a + sizeOf b

/-- `std::lexicographical_compare` over element `operator<`, as used by
`std::vector<const FieldValue>::operator<`. -/
def flistLt : FieldList → FieldList → Bool
  | .nil, .nil => false
  | .nil, .cons _ _ => true
  | .cons _ _, .nil => false
  | .cons x xs, .cons y ys =>
    if flt x y then true
    else if flt y x then false
    else flistLt xs ys
termination_by a b => sizeOf a + sizeOf b

/-- `std::pair<const std::string, const FieldValue>::operator<`: the key
first, then the value. -/
def opairLt (k : List Nat) (v : FieldValue) (k2 : List Nat) (v2 : FieldValue) : Bool :=
  bytesLt k k2 || (!bytesLt k2 k && flt v v2)
termination_by sizeOf v + sizeOf v2 + 1

/-- `std::map::operator<`: lexicographic comparison of the entry
sequences under the pair order. -/
def foLt : ObjList → ObjList → Bool
  | .nil, .nil => false
  | .nil, .cons _ _ _ => true
  | .cons _ _ _, .nil => false
  | .cons k v r, .cons k2 v2 r2 =>
    if opairLt k v k2 v2 then true
    else if opairLt k2 v2 k v then false
    else foLt r r2
termination_by a b => sizeOf a + sizeOf b + 1

end

/-- Derived equality of the ordering engine: `!(a<b) && !(b<a)`. -/
def fvEqB (a b : FieldValue) : Bool := !flt a b && !flt b a

/-- The kinds whose payloads own heap storage (moved by pointer swap). -/
def isHeapKind : TypeTag → Bool
  | .string | .blob | .array | .object => true
  | _ => false

/-- `FieldValue::SwitchTo`: a no-op when the value already has the
requested kind; otherwise the old payload is destroyed and the new
kind's payload is initialized — `Timestamp(0, 0)`, the origin-valued
`ServerTimestamp` pair, empty string/blob/array/object, `GeoPoint(0, 0)`.
The source leaves the POD payloads (Boolean, Long, Double) untouched in
the union, i.e. indeterminate; the placeholders chosen for them here are
observed by no theorem (every caller overwrites them). -/
def switchTo (v : FieldValue) (t : TypeTag) : FieldValue :=
  if kindOf v = t then v
  else
    match t with
    | .null => .null
    | .boolean => .boolean false
    | .long => .integer 0
    | .double => .double (.finite 0)
    | .timestamp => .timestamp ⟨0, 0⟩
    | .serverTimestamp => .serverTimestamp tsOrigin tsOrigin
    | .string => .string []
    | .blob => .blob []
    | .geoPoint => .geoPoint 0 0
    | .array => .array .nil
    | .object => .object .nil

/-- `FieldValue::operator=(const FieldValue&)`: `SwitchTo` the source's
kind, then copy the source payload into the union member of that kind
(copy-and-swap deep copies for Array and Object).  Aliasing of heap
storage is not representable here; the deep-copy contract is exactly
that the destination denotes the source's value. -/
def copyAssign (dst src : FieldValue) : FieldValue :=
  let d := switchTo dst (kindOf src)
  match src with
  | .null => d
  | .boolean b => .boolean b
  | .integer i => .integer i
  | .double q => .double q
  | .timestamp t => .timestamp t
  | .serverTimestamp l p => .serverTimestamp l p
  | .string s => .string s
  | .blob s => .blob s
  | .geoPoint la lo => .geoPoint la lo
  | .array xs => .array xs
  | .object m => .object m

/-- `FieldValue::operator=(FieldValue&&)`, returning the pair (new
destination, new source): for String, Blob, Array and Object the
destination is switched to the source's kind and the two payloads are
swapped, so the source receives whatever payload the switched destination
held; every other kind falls through to plain copy assignment, leaving
the source untouched. -/
def moveAssign (dst src : FieldValue) : FieldValue × FieldValue :=
  match src with
  | .string s =>
    match switchTo dst .string with
    | .string t => (.string s, .string t)
    | _ => (.string s, .string [])
  | .blob s =>
    match switchTo dst .blob with
    | .blob t => (.blob s, .blob t)
    | _ => (.blob s, .blob [])
  | .array xs =>
    match switchTo dst .array with
    | .array ys => (.array xs, .array ys)
    | _ => (.array xs, .array .nil)
  | .object m =>
    match switchTo dst .object with
    | .object n => (.object m, .object n)
    | _ => (.object m, .object .nil)
  | _ => (copyAssign dst src, src)

/-- Precedence slot of a kind (§4.2): Long and Double share one slot,
Timestamp and ServerTimestamp share one slot. -/
def slotRank : TypeTag → Nat
  | .null => 0
  | .boolean => 1
  | .long => 2
  | .double => 2
  | .timestamp => 3
  | .serverTimestamp => 3
  | .string => 4
  | .blob => 5
  | .geoPoint => 6
  | .array => 7
  | .object => 8

/-! The raw-tag model.  The C++ `tag_` is an enum field that can in
principle hold any underlying integer value; the switch statements of
`Comparable`, `operator<` and `operator=` dispatch on that raw value and
fall into a `FIREBASE_ASSERT`-guarded `default` branch when it matches no
enumerator.  `RawValue` pairs an unconstrained tag with a payload so that
those branches become expressible. -/

/-- Decode a raw tag back to an enumerator; `none` for the values no
`case` label matches. -/
def decodeTag : Nat → Option TypeTag
  | 0 => some .null
  | 1 => some .boolean
  | 2 => some .long
  | 3 => some .double
  | 4 => some .timestamp
  | 5 => some .serverTimestamp
  | 6 => some .string
  | 7 => some .blob
  | 8 => some .geoPoint
  | 9 => some .array
  | 10 => some .object
  | _ => none

/-- `Comparable` as the switch executes it on raw tags: the Long/Double
cases, the Timestamp/ServerTimestamp cases, and the `default` branch
comparing the raw tags for equality (which therefore also deems two
equal invalid tags comparable). -/
def rawComparable (lhs rhs : Nat) : Bool :=
  if lhs = 2 || lhs = 3 then rhs = 2 || rhs = 3
  else if lhs = 4 || lhs = 5 then rhs = 4 || rhs = 5
  else lhs = rhs

/-- A value as stored: a raw kind tag plus the payload carrier. -/
structure RawValue where
  tag : Nat
  payload : FieldValue

/-- Modelled from the spec: `FIREBASE_ASSERT_MESSAGE_WITH_EXPRESSION`
(firebase_assert.h, outside this translation unit) terminates the program
with a diagnostic naming the offending kind (§7 fail-fast); termination
is represented as `.error` carrying the offending raw tag.
`operator<` over raw tags: values whose tags are not comparable are
ordered by raw tag without inspecting payloads; comparable valid tags
dispatch to the payload comparison; a tag with no matching case reaches
the assertion. -/
def rawLt (x y : RawValue) : Except Nat Bool :=
  if !rawComparable x.tag y.tag then .ok (decide (x.tag < y.tag))
  else
    match decodeTag x.tag with
    | some _ => .ok (flt x.payload y.payload)
    | none => .error x.tag

/-- Modelled from the spec: as for `rawLt`, the assertion terminates with
the offending kind.  `operator=(const FieldValue&)` over a raw source
tag: `SwitchTo` adopts any tag without asserting, then the payload-copy
switch asserts on a tag with no matching case and copies the payload
otherwise. -/
def rawCopyAssign (dst src : RawValue) : Except Nat RawValue :=
  match decodeTag src.tag with
  | some _ => .ok ⟨src.tag, copyAssign dst.payload src.payload⟩
  | none => .error src.tag

/-- Concatenation of array payloads (for stating the prefix property). -/
def fappend : FieldList → FieldList → FieldList
  | .nil, ys => ys
  | .cons x xs, ys => .cons x (fappend xs ys)

/-- Concatenation of object payloads. -/
def oappend : ObjList → ObjList → ObjList
  | .nil, ys => ys
  | .cons k v xs, ys => .cons k v (oappend xs ys)

/-! Supporting lemmas. -/

theorem comparable_refl (t : TypeTag) : Comparable t t = true := by
  cases t <;> rfl

theorem bytesLt_irrefl (s : List Nat) : bytesLt s s = false := by
  induction s with
  | nil => rfl
  | cons a as ih => simp [bytesLt, ih]

theorem ltDD_irrefl (d : DoubleVal) : ltDD d d = false := by
  cases d <;> simp [ltDD, dLt, dGe, dEq, DoubleVal.isNaN]

theorem tsLtB_irrefl (t : Timestamp) : tsLtB t t = false := by
  simp [tsLtB]

mutual

theorem flt_irrefl (v : FieldValue) : flt v v = false := by
  cases v with
  | null => simp [flt, kindOf, Comparable]
  | boolean b => simp [flt, kindOf, Comparable]
  | integer i => simp [flt, kindOf, Comparable]
  | double d => simp [flt, kindOf, Comparable, ltDD_irrefl]
  | timestamp t => simp [flt, kindOf, Comparable, tsLtB_irrefl]
  | serverTimestamp l p => simp [flt, kindOf, Comparable, tsLtB_irrefl]
  | string s => simp [flt, kindOf, Comparable, bytesLt_irrefl]
  | blob s => simp [flt, kindOf, Comparable, bytesLt_irrefl]
  | geoPoint la lo => simp [flt, kindOf, Comparable]
  | array xs =>
    have h := flistLt_irrefl xs
    simp [flt, kindOf, Comparable, h]
  | object m =>
    have h := foLt_irrefl m
    simp [flt, kindOf, Comparable, h]

theorem flistLt_irrefl (l : FieldList) : flistLt l l = false := by
  cases l with
  | nil => simp [flistLt]
  | cons x xs =>
    have h1 := flt_irrefl x
    have h2 := flistLt_irrefl xs
    simp [flistLt, h1, h2]

theorem foLt_irrefl (m : ObjList) : foLt m m = false := by
  cases m with
  | nil => simp [foLt]
  | cons k v r =>
    have h1 := flt_irrefl v
    have h2 := foLt_irrefl r
    simp [foLt, opairLt, bytesLt_irrefl, h1, h2]

end

theorem fvEqB_refl (v : FieldValue) : fvEqB v v = true := by
  simp [fvEqB, flt_irrefl]

theorem kindOf_switchTo (v : FieldValue) (t : TypeTag) : kindOf (switchTo v t) = t := by
  rw [switchTo.eq_def]
  by_cases h : kindOf v = t
  · rw [if_pos h]
    exact h
  · rw [if_neg h]
    cases t <;> rfl

theorem eq_null_of_kind {v : FieldValue} (h : kindOf v = .null) : v = .null := by
  cases v <;> simp_all [kindOf]

theorem switchTo_null (v : FieldValue) : switchTo v .null = .null := by
  by_cases h : kindOf v = .null
  · simp [switchTo, h, eq_null_of_kind h]
  · simp [switchTo, h]

theorem copyAssign_eq (dst src : FieldValue) : copyAssign dst src = src := by
  cases src <;> simp [copyAssign, kindOf, switchTo_null]

theorem ratTrunc_intCast (n : Int) : ratTrunc ((n : Int) : ℚ) = n := by
  simp [ratTrunc]

theorem flt_eq_tag_of_not_comparable (a b : FieldValue)
    (h : Comparable (kindOf a) (kindOf b) = false) :
    flt a b = decide (tagNat (kindOf a) < tagNat (kindOf b)) := by
  rw [flt.eq_def, if_neg (by simp [h])]

theorem rawComparable_tagNat (a b : TypeTag) :
    rawComparable (tagNat a) (tagNat b) = Comparable a b := by
  cases a <;> cases b <;> rfl

theorem decodeTag_tagNat (t : TypeTag) : decodeTag (tagNat t) = some t := by
  cases t <;> rfl

theorem flt_int_int (x y : Int) : flt (.integer x) (.integer y) = decide (x < y) := by
  simp [flt, kindOf, Comparable]

theorem flt_int_dbl (x : Int) (d : DoubleVal) : flt (.integer x) (.double d) = ltID x d := by
  simp [flt, kindOf, Comparable]

theorem flt_dbl_int (d : DoubleVal) (y : Int) : flt (.double d) (.integer y) = ltDI d y := by
  simp [flt, kindOf, Comparable]

theorem flt_dbl_dbl (d e : DoubleVal) : flt (.double d) (.double e) = ltDD d e := by
  simp [flt, kindOf, Comparable]

theorem flt_arr (xs ys : FieldList) : flt (.array xs) (.array ys) = flistLt xs ys := by
  simp [flt, kindOf, Comparable]

theorem flt_obj (m n : ObjList) : flt (.object m) (.object n) = foLt m n := by
  simp [flt, kindOf, Comparable]

theorem opairLt_irrefl (k : List Nat) (v : FieldValue) : opairLt k v k v = false := by
  simp [opairLt, bytesLt_irrefl, flt_irrefl]

theorem flistLt_fappend (xs s : FieldList) (h : s ≠ .nil) :
    flistLt xs (fappend xs s) = true := by
  cases xs with
  | nil =>
    cases s with
    | nil => exact absurd rfl h
    | cons y ys => simp [fappend, flistLt]
  | cons x xs =>
    have ih := flistLt_fappend xs s h
    simp [fappend, flistLt, flt_irrefl, ih]

theorem flistLt_fappend_rev (xs s : FieldList) :
    flistLt (fappend xs s) xs = false := by
  cases xs with
  | nil => cases s <;> simp [fappend, flistLt]
  | cons x xs =>
    have ih := flistLt_fappend_rev xs s
    simp [fappend, flistLt, flt_irrefl, ih]

theorem foLt_oappend (m s : ObjList) (h : s ≠ .nil) :
    foLt m (oappend m s) = true := by
  cases m with
  | nil =>
    cases s with
    | nil => exact absurd rfl h
    | cons k v r => simp [oappend, foLt]
  | cons k v r =>
    have ih := foLt_oappend r s h
    simp [oappend, foLt, opairLt_irrefl, ih]

theorem foLt_oappend_rev (m s : ObjList) :
    foLt (oappend m s) m = false := by
  cases m with
  | nil => cases s <;> simp [oappend, foLt]
  | cons k v r =>
    have ih := foLt_oappend_rev r s
    simp [oappend, foLt, opairLt_irrefl, ih]

theorem eq_string_of_kind {v : FieldValue} (h : kindOf v = .string) :
    ∃ s, v = .string s := by
  cases v <;> simp_all [kindOf]

theorem eq_blob_of_kind {v : FieldValue} (h : kindOf v = .blob) :
    ∃ s, v = .blob s := by
  cases v <;> simp_all [kindOf]

theorem eq_array_of_kind {v : FieldValue} (h : kindOf v = .array) :
    ∃ xs, v = .array xs := by
  cases v <;> simp_all [kindOf]

theorem eq_object_of_kind {v : FieldValue} (h : kindOf v = .object) :
    ∃ m, v = .object m := by
  cases v <;> simp_all [kindOf]

theorem moveAssign_string (dst : FieldValue) (s : List Nat) :
    moveAssign dst (.string s) = (.string s, switchTo dst .string) := by
  rcases eq_string_of_kind (kindOf_switchTo dst .string) with ⟨t, ht⟩
  simp [moveAssign, ht]

theorem moveAssign_blob (dst : FieldValue) (s : List Nat) :
    moveAssign dst (.blob s) = (.blob s, switchTo dst .blob) := by
  rcases eq_blob_of_kind (kindOf_switchTo dst .blob) with ⟨t, ht⟩
  simp [moveAssign, ht]

theorem moveAssign_array (dst : FieldValue) (xs : FieldList) :
    moveAssign dst (.array xs) = (.array xs, switchTo dst .array) := by
  rcases eq_array_of_kind (kindOf_switchTo dst .array) with ⟨ys, ht⟩
  simp [moveAssign, ht]

theorem moveAssign_object (dst : FieldValue) (m : ObjList) :
    moveAssign dst (.object m) = (.object m, switchTo dst .object) := by
  rcases eq_object_of_kind (kindOf_switchTo dst .object) with ⟨n, ht⟩
  simp [moveAssign, ht]

theorem moveAssign_pod (dst src : FieldValue) (h : isHeapKind (kindOf src) = false) :
    moveAssign dst src = (copyAssign dst src, src) := by
  cases src <;> simp_all [moveAssign, isHeapKind, kindOf]

theorem ltID_false_eq (i : Int) (q : ℚ) (h1 : ltDI (.finite q) i = false)
    (h2 : ltID i (.finite q) = false) : intToDoubleQ i = q := by
  simp [ltID, h1, dEq] at h2
  exact h2.2

theorem ltDI_spec (q : ℚ) (i : Int) :
    ltDI (.finite q) i =
      (if q < intToDoubleQ llongMin then true
       else if intToDoubleQ llongMax ≤ q then false
       else if ratTrunc q < i then true
       else if i < ratTrunc q then false
       else ltDD (.finite q) (.finite (intToDoubleQ i))) := by
  by_cases h1 : q < intToDoubleQ llongMin
  · simp [ltDI, dLt, DoubleVal.isNaN, h1]
  · by_cases h2 : intToDoubleQ llongMax ≤ q
    · have hge : dGe (.finite q) (.finite (intToDoubleQ llongMax)) = true := by
        rcases eq_or_lt_of_le h2 with he | hl
        · simp [dGe, dEq, he.symm]
        · simp [dGe, dLt, hl]
      simp [ltDI, dLt, DoubleVal.isNaN, h1, hge, h2]
    · have hnlt : ¬ intToDoubleQ llongMax < q := fun hh => h2 (le_of_lt hh)
      have hne : ¬ q = intToDoubleQ llongMax := fun hh => h2 (le_of_eq hh.symm)
      have hge : dGe (.finite q) (.finite (intToDoubleQ llongMax)) = false := by
        simp [dGe, dLt, dEq, hnlt, hne]
      simp [ltDI, dLt, DoubleVal.isNaN, h1, hge, h2, dvTrunc]

theorem flistLt_cons_eq (x y : FieldValue) (xs ys : FieldList) :
    flistLt (.cons x xs) (.cons y ys) = (flt x y || (!flt y x && flistLt xs ys)) := by
  rw [flistLt]
  cases h1 : flt x y <;> cases h2 : flt y x <;> simp [h1, h2]

theorem foLt_cons_eq (k k2 : List Nat) (v v2 : FieldValue) (r r2 : ObjList) :
    foLt (.cons k v r) (.cons k2 v2 r2) =
      (bytesLt k k2 || (!bytesLt k2 k && (flt v v2 || (!flt v2 v && foLt r r2)))) := by
  rw [foLt]
  simp only [opairLt]
  cases h1 : bytesLt k k2 <;> cases h2 : bytesLt k2 k <;>
    cases h3 : flt v v2 <;> cases h4 : flt v2 v <;> simp [h1, h2, h3, h4]

theorem tag_slot_agree : ∀ ka kb : TypeTag, Comparable ka kb = false →
    decide (tagNat ka < tagNat kb) = decide (slotRank ka < slotRank kb) := by
  decide

/-! The claims. -/

/-- C1: the spec claims `operator<` is a strict total order (trichotomy
and transitivity).  Transitivity fails on the code: with
a = [Integer 9007199254740995, Integer 9],
b = [Integer 9007199254740996, Integer 0],
c = [Double 9007199254740996.0, Integer 1] we have a < b and b < c but
not a < c, because Integer 9007199254740995 and Double 9007199254740996.0
compare as equal (casting the integer to double rounds, ties-to-even, to
exactly the double), so c's first element ties with a's and the second
elements decide.  All three values are constructible through the
Construction API. -/
theorem claim_C1_order_violation :
    flt (.array (.cons (.integer 9007199254740995) (.cons (.integer 9) .nil)))
        (.array (.cons (.integer 9007199254740996) (.cons (.integer 0) .nil))) = true ∧
    flt (.array (.cons (.integer 9007199254740996) (.cons (.integer 0) .nil)))
        (.array (.cons (.double (.finite 9007199254740996)) (.cons (.integer 1) .nil))) = true ∧
    flt (.array (.cons (.integer 9007199254740995) (.cons (.integer 9) .nil)))
        (.array (.cons (.double (.finite 9007199254740996)) (.cons (.integer 1) .nil))) = false := by
  refine ⟨?_, ?_, ?_⟩
  · simp [flt, flistLt, Comparable, kindOf]
  · simp [flt, flistLt, Comparable, kindOf]
    decide
  · simp [flt, flistLt, Comparable, kindOf]
    decide

/-- C2 counterexample: a false equality does arise from rounding.
Integer 9007199254740995 and Double 9007199254740996.0 satisfy neither
`a<b` nor `b<a` — the derived equality holds — although the numbers
differ: `LessThan(int64_t, double)` decides equality by comparing
`static_cast<double>(lhs)` with `rhs`, and the cast rounds
9007199254740995 up to 9007199254740996. -/
theorem claim_C2_counterexample :
    fvEqB (.integer 9007199254740995) (.double (.finite 9007199254740996)) = true ∧
    (9007199254740995 : ℚ) ≠ (9007199254740996 : ℚ) := by
  refine ⟨?_, by decide⟩
  simp only [fvEqB, flt_int_dbl, flt_dbl_int]
  decide

/-- C2 (amended): `LessThan(double, int64_t)` falls back to the direct
comparison only when the double is NaN or outside the representable
int64 range, and otherwise truncates the double and, on a tie,
re-compares as doubles; in the equal-after-truncation case the derived
equality implies exact numeric equality (no false equality in that
path); and Integer `LLONG_MAX` compared with Double 2^63 comes out
strictly less, not equal.  (False equality can still arise in the
reverse rounding direction, per the counterexample.) -/
theorem claim_C2_amended :
    (∀ (q : ℚ) (i : Int),
        ltDI (.finite q) i =
          (if q < intToDoubleQ llongMin then true
           else if intToDoubleQ llongMax ≤ q then false
           else if ratTrunc q < i then true
           else if i < ratTrunc q then false
           else ltDD (.finite q) (.finite (intToDoubleQ i)))) ∧
    (∀ (q : ℚ) (i : Int),
        intToDoubleQ llongMin ≤ q → q < intToDoubleQ llongMax →
        ratTrunc q = i →
        fvEqB (.double (.finite q)) (.integer i) = true → q = (i : ℚ)) ∧
    flt (.integer llongMax) (.double (.finite (2 ^ 63))) = true ∧
    flt (.double (.finite (2 ^ 63))) (.integer llongMax) = false := by
  refine ⟨ltDI_spec, ?_, ?_, ?_⟩
  · intro q i _ _ htr heq
    have hboth : flt (.double (.finite q)) (.integer i) = false ∧
        flt (.integer i) (.double (.finite q)) = false := by
      simpa [fvEqB] using heq
    have h1 : ltDI (.finite q) i = false := by rw [← flt_dbl_int]; exact hboth.1
    have h2 : ltID i (.finite q) = false := by rw [← flt_int_dbl]; exact hboth.2
    have hd : intToDoubleQ i = q := ltID_false_eq i q h1 h2
    have h3 : ratTrunc (intToDoubleQ i) = roundInt53 i := ratTrunc_intCast (roundInt53 i)
    rw [hd, htr] at h3
    have hq : q = (roundInt53 i : ℚ) := by rw [← hd]; rfl
    rw [hq, ← h3]
  · rw [flt_int_dbl]
    decide
  · rw [flt_dbl_int]
    decide

/-- C2 witness: the amended no-false-equality statement applies at
Double 5.0 versus Integer 5, which are derived-equal and exactly
equal. -/
theorem claim_C2_witness : (5 : ℚ) = ((5 : Int) : ℚ) :=
  claim_C2_amended.2.1 5 5 (by decide) (by decide) (by decide)
    (by simp only [fvEqB, flt_dbl_int, flt_int_dbl]; decide)

/-- C3: a NaN double is less than every integer and every non-NaN double
(including negative infinity), never greater, and two NaN doubles are
neither-less-than each other. -/
theorem claim_C3_nan_least :
    (∀ i : Int,
        flt (.double .nan) (.integer i) = true ∧
        flt (.integer i) (.double .nan) = false) ∧
    (∀ d : DoubleVal, d.isNaN = false →
        flt (.double .nan) (.double d) = true ∧
        flt (.double d) (.double .nan) = false) ∧
    flt (.double .nan) (.double .nan) = false := by
  refine ⟨fun i => ⟨?_, ?_⟩, fun d hd => ⟨?_, ?_⟩, ?_⟩
  · rw [flt_dbl_int]
    simp [ltDI, DoubleVal.isNaN]
  · rw [flt_int_dbl]
    simp [ltID, ltDI, DoubleVal.isNaN]
  · rw [flt_dbl_dbl]
    cases d <;> simp_all [ltDD, dLt, dGe, dEq, DoubleVal.isNaN]
  · rw [flt_dbl_dbl]
    cases d <;> simp_all [ltDD, dLt, dGe, dEq, DoubleVal.isNaN]
  · rw [flt_dbl_dbl]
    simp [ltDD, dLt, dGe, dEq, DoubleVal.isNaN]

/-- C3 witness: NaN is less than negative infinity and not conversely. -/
theorem claim_C3_witness :
    flt (.double .nan) (.double .neginf) = true ∧
    flt (.double .neginf) (.double .nan) = false :=
  claim_C3_nan_least.2.1 .neginf rfl

/-- C4: a Timestamp is always less than a ServerTimestamp and never
conversely, regardless of the ServerTimestamp's fields; two
ServerTimestamps compare exactly by their `local` timestamps, the
`previous` fields never participating. -/
theorem claim_C4_server_timestamp :
    (∀ t l p : Timestamp, flt (.timestamp t) (.serverTimestamp l p) = true) ∧
    (∀ t l p : Timestamp, flt (.serverTimestamp l p) (.timestamp t) = false) ∧
    (∀ l p l2 p2 : Timestamp,
        flt (.serverTimestamp l p) (.serverTimestamp l2 p2) = tsLtB l l2) := by
  refine ⟨fun t l p => ?_, fun t l p => ?_, fun l p l2 p2 => ?_⟩ <;>
    simp [flt, kindOf, Comparable]

/-- C5: for values of non-comparable kinds the order is exactly the
fixed kind-precedence order (Null < Boolean < Integer/Double <
Timestamp/ServerTimestamp < String < Blob < GeoPoint < Array < Object),
independent of either payload. -/
theorem claim_C5_precedence (a b : FieldValue)
    (h : Comparable (kindOf a) (kindOf b) = false) :
    flt a b = decide (slotRank (kindOf a) < slotRank (kindOf b)) := by
  rw [flt_eq_tag_of_not_comparable a b h]
  exact tag_slot_agree (kindOf a) (kindOf b) h

/-- C5 witness: Null against Boolean true is decided by precedence. -/
theorem claim_C5_witness :
    flt .null (.boolean true) =
      decide (slotRank (kindOf FieldValue.null) <
        slotRank (kindOf (FieldValue.boolean true))) :=
  claim_C5_precedence _ _ rfl

/-- C6: `SwitchTo` is a no-op when the kind already matches; otherwise
the new payload is default-initialized — Timestamp (0,0), GeoPoint
(0,0), the origin-valued ServerTimestamp pair, and empty
string/blob/array/object. -/
theorem claim_C6_switch_to (v : FieldValue) (t : TypeTag) :
    (kindOf v = t → switchTo v t = v) ∧
    (kindOf v ≠ t →
      (t = .timestamp → switchTo v t = .timestamp ⟨0, 0⟩) ∧
      (t = .geoPoint → switchTo v t = .geoPoint 0 0) ∧
      (t = .serverTimestamp → switchTo v t = .serverTimestamp tsOrigin tsOrigin) ∧
      (t = .string → switchTo v t = .string []) ∧
      (t = .blob → switchTo v t = .blob []) ∧
      (t = .array → switchTo v t = .array .nil) ∧
      (t = .object → switchTo v t = .object .nil)) := by
  constructor
  · intro h
    simp [switchTo, h]
  · intro h
    refine ⟨?_, ?_, ?_, ?_, ?_, ?_, ?_⟩ <;> intro ht <;> subst ht <;>
      rw [switchTo.eq_def, if_neg h]

/-- C6 witness: switching a Null value to Timestamp yields the zero
timestamp. -/
theorem claim_C6_witness : switchTo .null .timestamp = .timestamp ⟨0, 0⟩ :=
  ((claim_C6_switch_to .null .timestamp).2 (by decide)).1 rfl

/-- C7 counterexample: moving String "i" into a destination already
holding String "h" leaves the source holding the destination's old
payload "h" — a valid value, but not an empty-equivalent one. -/
theorem claim_C7_counterexample :
    (moveAssign (.string [104]) (.string [105])).2 = .string [104] ∧
    (moveAssign (.string [104]) (.string [105])).2 ≠ .string [] := by
  have h : moveAssign (.string [104]) (.string [105]) =
      (.string [105], .string [104]) := by
    rw [moveAssign_string]
    simp [switchTo, kindOf]
  rw [h]
  simp

/-- C7 (amended): move assignment of a String/Blob/Array/Object value
transfers the payload by swapping, so the destination receives exactly
the source's value (and is derived-equal to it), while the source
receives the switched destination's payload — the empty container when
the destination had a different kind, the destination's old payload when
it had the same kind; for every other kind move assignment is exactly
copy assignment, leaving the source unchanged. -/
theorem claim_C7_move (dst src : FieldValue) :
    (moveAssign dst src).1 = src ∧
    fvEqB (moveAssign dst src).1 src = true ∧
    (isHeapKind (kindOf src) = true →
      (moveAssign dst src).2 = switchTo dst (kindOf src)) ∧
    (isHeapKind (kindOf src) = true → kindOf dst = kindOf src →
      (moveAssign dst src).2 = dst) ∧
    (isHeapKind (kindOf src) = false →
      moveAssign dst src = (copyAssign dst src, src)) := by
  have hheap : isHeapKind (kindOf src) = true →
      moveAssign dst src = (src, switchTo dst (kindOf src)) := by
    intro hh
    cases src <;>
      simp_all [isHeapKind, kindOf, moveAssign_string, moveAssign_blob,
        moveAssign_array, moveAssign_object]
  have h1 : (moveAssign dst src).1 = src := by
    by_cases hh : isHeapKind (kindOf src) = true
    · rw [hheap hh]
    · rw [moveAssign_pod dst src (by simpa using hh)]
      exact copyAssign_eq dst src
  refine ⟨h1, ?_, fun hh => ?_, fun hh hk => ?_, fun hh => moveAssign_pod dst src hh⟩
  · rw [h1]
    exact fvEqB_refl src
  · rw [hheap hh]
  · rw [hheap hh]
    simp [switchTo, hk]

/-- C7 witness: moving a String into a Null destination leaves the
source as the switched destination, i.e. the empty string value. -/
theorem claim_C7_witness :
    (moveAssign .null (.string [104])).2 = switchTo .null .string :=
  (claim_C7_move .null (.string [104])).2.2.1 rfl

/-- C8: arrays compare lexicographically element-wise under the same
order recursively, a strict prefix being strictly less; objects compare
as their entry sequences, each entry comparing its key bytes first and
then its value recursively, a strict prefix sequence being strictly
less. -/
theorem claim_C8_containers :
    (∀ (x y : FieldValue) (xs ys : FieldList),
        flt (.array (.cons x xs)) (.array (.cons y ys)) =
          (flt x y || (!flt y x && flistLt xs ys))) ∧
    (∀ xs s : FieldList, s ≠ .nil →
        flt (.array xs) (.array (fappend xs s)) = true ∧
        flt (.array (fappend xs s)) (.array xs) = false) ∧
    (∀ (k k2 : List Nat) (v v2 : FieldValue) (r r2 : ObjList),
        flt (.object (.cons k v r)) (.object (.cons k2 v2 r2)) =
          (bytesLt k k2 ||
            (!bytesLt k2 k && (flt v v2 || (!flt v2 v && foLt r r2))))) ∧
    (∀ m s : ObjList, s ≠ .nil →
        flt (.object m) (.object (oappend m s)) = true ∧
        flt (.object (oappend m s)) (.object m) = false) := by
  refine ⟨?_, ?_, ?_, ?_⟩
  · intro x y xs ys
    rw [flt_arr, flistLt_cons_eq]
  · intro xs s h
    exact ⟨by rw [flt_arr]; exact flistLt_fappend xs s h,
      by rw [flt_arr]; exact flistLt_fappend_rev xs s⟩
  · intro k k2 v v2 r r2
    rw [flt_obj, foLt_cons_eq]
  · intro m s h
    exact ⟨by rw [flt_obj]; exact foLt_oappend m s h,
      by rw [flt_obj]; exact foLt_oappend_rev m s⟩

/-- C8 witness: the empty array is a strict prefix of [Integer 1] and
compares strictly below it. -/
theorem claim_C8_witness :
    flt (.array .nil) (.array (fappend .nil (.cons (.integer 1) .nil))) = true :=
  (claim_C8_containers.2.1 .nil (.cons (.integer 1) .nil)
    (fun h => FieldList.noConfusion h)).1

/-- C9 counterexample: a value whose raw kind tag (99) matches no case
reaches the comparison operator against a differently invalid tag (100);
the two tags are not comparable, so the comparator silently returns the
tag-order result instead of terminating. -/
theorem claim_C9_counterexample :
    rawLt ⟨99, .null⟩ ⟨100, .null⟩ = .ok true ∧
    decodeTag 99 = none ∧ decodeTag 100 = none := by
  exact ⟨rfl, rfl, rfl⟩

/-- C9 (amended): an unmatched raw tag triggers the assertion (with the
offending tag as diagnostic) in the comparison only when it reaches the
kind-dispatch switch, i.e. when the two tags are deemed comparable; when
they are not comparable the comparison silently falls back to raw tag
order.  Copy assignment always triggers the assertion for an unmatched
source tag.  Values built through the Construction API carry valid tags
and never reach the assertion on either path. -/
theorem claim_C9_assert :
    (∀ x y : RawValue, decodeTag x.tag = none →
        rawComparable x.tag y.tag = true → rawLt x y = .error x.tag) ∧
    (∀ x y : RawValue, decodeTag x.tag = none →
        rawComparable x.tag y.tag = false →
        rawLt x y = .ok (decide (x.tag < y.tag))) ∧
    (∀ dst src : RawValue, decodeTag src.tag = none →
        rawCopyAssign dst src = .error src.tag) ∧
    (∀ v w : FieldValue,
        rawLt ⟨tagNat (kindOf v), v⟩ ⟨tagNat (kindOf w), w⟩ = .ok (flt v w)) ∧
    (∀ dst src : FieldValue,
        rawCopyAssign ⟨tagNat (kindOf dst), dst⟩ ⟨tagNat (kindOf src), src⟩ =
          .ok ⟨tagNat (kindOf src), src⟩) := by
  refine ⟨?_, ?_, ?_, ?_, ?_⟩
  · intro x y h1 h2
    simp [rawLt, h1, h2]
  · intro x y h1 h2
    simp [rawLt, h2]
  · intro dst src h
    simp [rawCopyAssign, h]
  · intro v w
    by_cases hc : Comparable (kindOf v) (kindOf w) = true
    · have hr : rawComparable (tagNat (kindOf v)) (tagNat (kindOf w)) = true := by
        rw [rawComparable_tagNat]
        exact hc
      simp [rawLt, hr, decodeTag_tagNat]
    · have hf : Comparable (kindOf v) (kindOf w) = false := by
        simpa using hc
      have hr : rawComparable (tagNat (kindOf v)) (tagNat (kindOf w)) = false := by
        rw [rawComparable_tagNat]
        exact hf
      simp [rawLt, hr]
      rw [flt_eq_tag_of_not_comparable v w hf]
  · intro dst src
    simp [rawCopyAssign, decodeTag_tagNat, copyAssign_eq]

/-- C9 witness: two equal invalid tags are deemed comparable by the
default branch of `Comparable`, reach the dispatch switch, and hit the
assertion with the offending tag. -/
theorem claim_C9_witness : rawLt ⟨11, .null⟩ ⟨11, .null⟩ = .error 11 :=
  claim_C9_assert.1 ⟨11, .null⟩ ⟨11, .null⟩ rfl rfl

/-- C10: the comparability relation on kinds is reflexive and symmetric,
and holds exactly on equal kinds, on the {Long, Double} pair, and on the
{Timestamp, ServerTimestamp} pair — so these two are its only
non-singleton equivalence classes, and a comparable right operand always
carries a payload of the dispatched case's slot. -/
theorem claim_C10_comparable :
    (∀ t : TypeTag, Comparable t t = true) ∧
    (∀ a b : TypeTag, Comparable a b = Comparable b a) ∧
    (∀ a b : TypeTag, Comparable a b =
      (decide (a = b) ||
        ((decide (a = .long) || decide (a = .double)) &&
          (decide (b = .long) || decide (b = .double))) ||
        ((decide (a = .timestamp) || decide (a = .serverTimestamp)) &&
          (decide (b = .timestamp) || decide (b = .serverTimestamp))))) ∧
    (∀ a b : TypeTag, Comparable a b = true → slotRank a = slotRank b) := by
  refine ⟨by decide, by decide, by decide, by decide⟩

/-- C10 witness: Long and Double are comparable and share one precedence
slot. -/
theorem claim_C10_witness : slotRank .long = slotRank .double :=
  claim_C10_comparable.2.2.2 .long .double rfl

end FieldValueSpec
